import Mathlib

/-! system-monitor-tool: the sampling-and-snapshot engine of `src/main.cpp`

A shallow embedding of the pure core of `main.cpp` and the properties of it
that the specification states.

Conventions of the embedding

* `long long`, `long` and `int` values are unbounded integers (`Int`); signed
  overflow is undefined behaviour in C++ and is assumed absent.
* a `double` is read as an exact rational (`ℚ`); a division whose divisor is
  zero does not yield a finite number (it yields an infinity or a NaN), so a
  `double` result is an `Option ℚ` and `none` stands for a non-finite value.
* text is `String`; a file is `Option String`, `none` meaning that the file
  cannot be opened for reading (it does not exist).
* what a function prints is returned as the list of the lines it prints.
* `std::sort` is a parameter of the functions that call it, constrained by
  what the C++ standard guarantees (`StdSort`); the routine of GNU libstdc++ is
  embedded as `gnu_sort` to run the program's sort on concrete tables.
-/

namespace SysMonitor

/-! ## CPU usage estimator -/

/-- The eight cumulative counters of the aggregate `cpu` line of `/proc/stat`
(`struct CpuTimes`). -/
structure CpuTimes where
  user : Int
  nice : Int
  system : Int
  idle : Int
  iowait : Int
  irq : Int
  softirq : Int
  steal : Int
deriving DecidableEq, Repr

/-- Division of two `double`s, finite operands: a zero divisor gives no finite
result. -/
def fdiv (a b : ℚ) : Option ℚ :=
  if b = 0 then none else some (a / b)

/-- The `double` `calculate_cpu_usage(prev, curr)` returns (`main.cpp` 42-57). -/
def calculate_cpu_usage (prev curr : CpuTimes) : Option ℚ :=
  let prev_idle : Int := prev.idle + prev.iowait
  let curr_idle : Int := curr.idle + curr.iowait
  let prev_non_idle : Int :=
    prev.user + prev.nice + prev.system + prev.irq + prev.softirq + prev.steal
  let curr_non_idle : Int :=
    curr.user + curr.nice + curr.system + curr.irq + curr.softirq + curr.steal
  let prev_total : Int := prev_idle + prev_non_idle
  let curr_total : Int := curr_idle + curr_non_idle
  let totald : Int := curr_total - prev_total
  let idled : Int := curr_idle - prev_idle
  if totald = 0 then some 0
  else fdiv (((totald - idled : Int) : ℚ) * 100) (totald : ℚ)

/-! ### The estimator in the words of the specification -/

/-- The specification's `idle'`: `idle + iowait`. -/
def spec_idle (s : CpuTimes) : Int := s.idle + s.iowait

/-- The specification's `nonidle'`:
`user + nice + system + irq + softirq + steal`. -/
def spec_nonidle (s : CpuTimes) : Int :=
  s.user + s.nice + s.system + s.irq + s.softirq + s.steal

/-- The specification's `total`: `idle' + nonidle'`. -/
def spec_total (s : CpuTimes) : Int := spec_idle s + spec_nonidle s

/-- The specification's `Δtotal`. -/
def delta_total (prev curr : CpuTimes) : Int := spec_total curr - spec_total prev

/-- The specification's `Δidle`. -/
def delta_idle (prev curr : CpuTimes) : Int := spec_idle curr - spec_idle prev

/-- The change of the non-idle time between two samples. -/
def delta_nonidle (prev curr : CpuTimes) : Int :=
  spec_nonidle curr - spec_nonidle prev

/-- All eight counters of a sample are non-negative. -/
def CpuTimes.nonneg (s : CpuTimes) : Prop :=
  0 ≤ s.user ∧ 0 ≤ s.nice ∧ 0 ≤ s.system ∧ 0 ≤ s.idle ∧
  0 ≤ s.iowait ∧ 0 ≤ s.irq ∧ 0 ≤ s.softirq ∧ 0 ≤ s.steal

instance (s : CpuTimes) : Decidable s.nonneg := by
  unfold CpuTimes.nonneg; infer_instance

/-- Every counter of `curr` is at least the same counter of `prev`. -/
def CpuTimes.le (prev curr : CpuTimes) : Prop :=
  prev.user ≤ curr.user ∧ prev.nice ≤ curr.nice ∧ prev.system ≤ curr.system ∧
  prev.idle ≤ curr.idle ∧ prev.iowait ≤ curr.iowait ∧ prev.irq ≤ curr.irq ∧
  prev.softirq ≤ curr.softirq ∧ prev.steal ≤ curr.steal

instance (p c : CpuTimes) : Decidable (CpuTimes.le p c) := by
  unfold CpuTimes.le; infer_instance

/-- The first sample of the specification's CPU scenario. -/
def scenario_prev : CpuTimes :=
  { user := 100, nice := 0, system := 50, idle := 200, iowait := 10,
    irq := 0, softirq := 0, steal := 0 }

/-- The second sample of the specification's CPU scenario. -/
def scenario_curr : CpuTimes :=
  { user := 120, nice := 0, system := 60, idle := 210, iowait := 10,
    irq := 0, softirq := 0, steal := 0 }

/-- A sample before the `iowait` counter decreases. -/
def decreasing_prev : CpuTimes :=
  { user := 100, nice := 0, system := 0, idle := 200, iowait := 50,
    irq := 0, softirq := 0, steal := 0 }

/-- A later sample: `iowait` fell by 20, `idle` rose by 10, `user` by 20. -/
def decreasing_curr_high : CpuTimes :=
  { user := 120, nice := 0, system := 0, idle := 210, iowait := 30,
    irq := 0, softirq := 0, steal := 0 }

/-- A later sample: `iowait` fell by 20, `user` rose by 10. -/
def decreasing_curr_low : CpuTimes :=
  { user := 110, nice := 0, system := 0, idle := 200, iowait := 30,
    irq := 0, softirq := 0, steal := 0 }

/-- A sample with the total of `scenario_curr`, the time spent differently. -/
def frozen_curr : CpuTimes :=
  { user := 130, nice := 0, system := 60, idle := 200, iowait := 10,
    irq := 0, softirq := 0, steal := 0 }

/-! ## Process enumeration and the snapshot table -/

/-- One row of the process table (`struct ProcessInfo`); `cpu_usage` is a
`double` that the program only ever sets to `0.0`. -/
structure ProcessInfo where
  pid : Int
  name : String
  mem_usage_kb : Int
  cpu_usage : ℚ
deriving DecidableEq

/-- What the reads of one sampling cycle find under `/proc`.

* `pids`: the vector `get_pids()` returns, in directory order;
* `comm pid`: the content of `/proc/<pid>/comm`, `none` when it cannot be
  opened;
* `statm pid`: the values `statm >> size >> resident` leaves in `size` and
  `resident`, `none` when `/proc/<pid>/statm` cannot be opened;
* `page_size`: `sysconf(_SC_PAGESIZE)`. -/
structure ProcFs where
  pids : List Int
  comm : Int → Option String
  statm : Int → Option (Int × Int)
  page_size : Int

/-- What `std::getline(stream, line)` stores on a fresh stream: the characters
before the first line feed. -/
def first_line (content : String) : String :=
  String.mk (content.data.takeWhile (fun c => c ≠ '\n'))

/-- The record `get_process_info(pid)` returns (`main.cpp` 95-115). -/
def get_process_info (fs : ProcFs) (pid : Int) : ProcessInfo :=
  let name : String :=
    match fs.comm pid with
    | some content => first_line content
    | none => ""
  let resident : Int :=
    match fs.statm pid with
    | some (_, resident) => resident
    | none => 0
  let page_size_kb : Int := fs.page_size.tdiv 1024
  { pid := pid, name := name, mem_usage_kb := resident * page_size_kb, cpu_usage := 0 }

/-- The comparator of the CPU sort: `a.cpu_usage > b.cpu_usage`. -/
def by_cpu (a b : ProcessInfo) : Bool := decide (a.cpu_usage > b.cpu_usage)

/-- The comparator of the memory sort: `a.mem_usage_kb > b.mem_usage_kb`. -/
def by_mem (a b : ProcessInfo) : Bool := decide (a.mem_usage_kb > b.mem_usage_kb)

/-- A sorting routine in the shape of `std::sort`: a comparator and the
range to sort. -/
abbrev SortFn := (ProcessInfo → ProcessInfo → Bool) → List ProcessInfo → List ProcessInfo

/-- The comparator requirement of `std::sort`: a strict weak ordering
(irreflexive, transitive, incomparability transitive). -/
def StrictWeakOrder (comp : ProcessInfo → ProcessInfo → Bool) : Prop :=
  (∀ a, comp a a = false) ∧
  (∀ a b c, comp a b = true → comp b c = true → comp a c = true) ∧
  (∀ a b c, comp a b = false → comp b a = false → comp b c = false → comp c b = false →
    comp a c = false ∧ comp c a = false)

/-- A range is sorted with respect to `comp` in the sense of the C++ standard:
no element compares before one that precedes it. -/
def SortedBy (comp : ProcessInfo → ProcessInfo → Bool) (l : List ProcessInfo) : Prop :=
  l.Pairwise (fun a b => comp b a = false)

/-- What the C++ standard guarantees of `std::sort`, the library routine
`display_process_list` calls: for a strict weak ordering the result is a
permutation of the range and sorted with respect to the comparator. The
order of equivalent elements is left open. -/
def StdSort (sort : SortFn) : Prop :=
  ∀ comp l, StrictWeakOrder comp → (sort comp l).Perm l ∧ SortedBy comp (sort comp l)

/-- The two `std::sort` calls that `display_process_list` chooses between
(`main.cpp` 167-177). -/
def sort_processes (sort : SortFn) (sort_mode : Char) (processes : List ProcessInfo) :
    List ProcessInfo :=
  if sort_mode = 'c' then sort by_cpu processes else sort by_mem processes

/-- The vector `processes` of `display_process_list` when it is printed
(`main.cpp` 161-177): one record per enumerated pid, then sorted. -/
def process_table (sort : SortFn) (fs : ProcFs) (sort_mode : Char) : List ProcessInfo :=
  sort_processes sort sort_mode (fs.pids.map (get_process_info fs))

/-- The line printed for one record. -/
def row_line (proc : ProcessInfo) : String :=
  toString proc.pid ++ "\t" ++ proc.name ++ "\t\t" ++ toString proc.mem_usage_kb

/-- The lines `display_process_list(sort_mode)` prints (`main.cpp` 160-184). -/
def display_process_list (sort : SortFn) (fs : ProcFs) (sort_mode : Char) : List String :=
  "PID\tProcess Name\tMemory (KB)" ::
  "-----------------------------------------" ::
  (process_table sort fs sort_mode).map row_line

/-- Insertion sort with the comparator of `std::sort`; it is stable. -/
def insertion_sort : SortFn :=
  fun comp l => l.insertionSort (fun a b => comp b a = false)

/-- A `/proc` with three processes. -/
def sample_fs : ProcFs :=
  { pids := [1, 2, 3],
    comm := fun pid => if pid = 1 then some "init\n" else if pid = 2 then some "sh\n" else none,
    statm := fun pid =>
      if pid = 1 then some (500, 100) else if pid = 2 then some (900, 300) else none,
    page_size := 4096 }

/-- A `/proc` with two processes whose files cannot be opened. -/
def vanished_fs : ProcFs :=
  { pids := [1, 2], comm := fun _ => none, statm := fun _ => none, page_size := 4096 }

/-- Three records with different memory and CPU figures. -/
def sample_processes : List ProcessInfo :=
  [ { pid := 10, name := "a", mem_usage_kb := 400, cpu_usage := 7 },
    { pid := 11, name := "b", mem_usage_kb := 1200, cpu_usage := 0 },
    { pid := 12, name := "c", mem_usage_kb := 400, cpu_usage := 9 } ]

/-! ## The `std::sort` of GNU libstdc++

The routine the program's two `std::sort` calls run when it is built with
GCC: `std::__sort` of `bits/stl_algo.h` with the heap routines of
`bits/stl_heap.h`. The vector is a list, an iterator `begin + i` is the
index `i`; a loop whose number of rounds is not one of its variables takes a
bound on the rounds as its first numeric argument. -/

/-- A `double` value: an exact rational, or `none` for a non-finite one. -/
abbrev Double := Option ℚ

/-- The text `display_system_info(cpu_usage, mem_used, mem_total)` prints
(`main.cpp` 153-157); `show_double` is the text that `std::cout <<` writes for
a `double`. -/
def display_system_info (show_double : Double → String) (cpu_usage : Double)
    (mem_used mem_total : Int) : String :=
  "System Monitor Tool\n\n" ++
  "CPU Load: " ++ show_double cpu_usage ++ " %\n" ++
  "Memory Usage: " ++ toString (mem_used.tdiv 1024) ++ " MB / " ++
    toString (mem_total.tdiv 1024) ++ " MB\n\n"

/-- The content of the log file after
`log_stats(filename, timestamp, cpu_load, mem_used, mem_total)`
(`main.cpp` 187-190): the file is opened in append mode, which creates it when
it does not exist, and one line is written at its end. -/
def log_stats (show_double : Double → String) (file : Option String) (timestamp : String)
    (cpu_load : Double) (mem_used mem_total : Int) : String :=
  let record : String :=
    timestamp ++ "," ++ show_double cpu_load ++ "," ++ toString (mem_used.tdiv 1024) ++ "," ++
      toString (mem_total.tdiv 1024) ++ "\n"
  match file with
  | none => record
  | some content => content ++ record

/-- The loop `while (std::getline(logfile, line)) lines.push_back(line)` on
the characters still unread, `line` holding the characters already read of the
current line: a line feed ends a line; at the end of the file a line is
produced only when characters were read for it. -/
def read_lines_from (line : List Char) : List Char → List String
  | [] => if line = [] then [] else [String.mk line]
  | c :: rest =>
    if c = '\n' then String.mk line :: read_lines_from [] rest
    else read_lines_from (line ++ [c]) rest

/-- The vector `lines` that `display_history` reads from the file. -/
def read_lines (content : String) : List String :=
  read_lines_from [] content.data

/-- The lines `display_history(filename, last_n)` prints (`main.cpp` 193-212).
The comparison `lines.size() > last_n` and the subtraction
`lines.size() - last_n` are unsigned: `last_n` is converted to `size_t`
(64 bits). -/
def display_history (file : Option String) (last_n : Int) : List String :=
  match file with
  | none => ["No history log found."]
  | some content =>
    let lines : List String := read_lines content
    let last_n_unsigned : Nat := (last_n % 2 ^ 64).toNat
    let start : Nat :=
      if lines.length > last_n_unsigned then lines.length - last_n_unsigned else 0
    "Timestamp, CPU Load %, Memory Used MB, Memory Total MB" ::
    "-------------------------------------------------------" ::
    lines.drop start

/-- The log file after the start-up code of `main` (`main.cpp` 221-226): a
file that cannot be opened is created with the header line. -/
def init_log (file : Option String) : String :=
  match file with
  | none => "Timestamp,CPU Load %,Memory Used MB,Memory Total MB\n"
  | some content => content

/-- The memory part of one cycle of `main` (`main.cpp` 235-238, 246): from the
pair `read_memory()` returned, the text of `display_system_info` and the log
file after `log_stats`. -/
def memory_cycle (show_double : Double → String) (cpu_usage : Double) (memory : Int × Int)
    (file : Option String) (timestamp : String) : String × String :=
  let mem_total : Int := memory.1
  let mem_available : Int := memory.2
  let mem_used : Int := mem_total - mem_available
  (display_system_info show_double cpu_usage mem_used mem_total,
   log_stats show_double file timestamp cpu_usage mem_used mem_total)

/-- A stand-in for the text of a `double`: the integer part for a finite
value, `nan` otherwise. -/
def show_floor : Double → String
  | some q => toString (⌊q⌋ : Int)
  | none => "nan"

/-- The history record in the words of the specification: the line
`timestamp,cpu_load,mem_used_mb,mem_total_mb`, without its terminator. -/
def spec_record (show_double : Double → String) (timestamp : String) (cpu_load : Double)
    (mem_used_mb mem_total_mb : Int) : String :=
  timestamp ++ "," ++ show_double cpu_load ++ "," ++ toString mem_used_mb ++ "," ++
    toString mem_total_mb

/-- A text file is terminated when it is empty or its last character is a
line feed. -/
def Terminated (content : String) : Prop :=
  content.data = [] ∨ content.data.getLast? = some '\n'

instance (content : String) : Decidable (Terminated content) := by
  unfold Terminated; infer_instance

/-! ## Theorems -/

/-- The estimator written with the specification's deltas. -/
theorem calculate_cpu_usage_eq (prev curr : CpuTimes) :
    calculate_cpu_usage prev curr =
      if delta_total prev curr = 0 then some 0
      else some (((delta_nonidle prev curr : Int) : ℚ) * 100
                  / (delta_total prev curr : ℚ)) := by
  have hn : delta_total prev curr - delta_idle prev curr = delta_nonidle prev curr := by
    simp only [delta_total, delta_idle, delta_nonidle, spec_total]; ring
  by_cases h : delta_total prev curr = 0
  · have h' := h
    simp only [delta_total, spec_total, spec_idle, spec_nonidle] at h'
    simp [calculate_cpu_usage, h, h']
  · have h' := h
    simp only [delta_total, spec_total, spec_idle, spec_nonidle] at h'
    have hq : ((delta_total prev curr : Int) : ℚ) ≠ 0 := by exact_mod_cast h
    rw [if_neg h, ← hn]
    simp only [calculate_cpu_usage, if_neg h', fdiv]
    simp only [delta_total, delta_idle, spec_total, spec_idle, spec_nonidle] at hq ⊢
    rw [if_neg hq]

/-- The estimator always returns a finite value: the guard on `totald`
keeps a zero divisor away from the division. -/
theorem calculate_cpu_usage_finite (prev curr : CpuTimes) :
    ∃ v, calculate_cpu_usage prev curr = some v := by
  rw [calculate_cpu_usage_eq]
  split_ifs
  · exact ⟨_, rfl⟩
  · exact ⟨_, rfl⟩

/-- With non-decreasing counters the idle and the non-idle time do not
decrease. -/
theorem deltas_nonneg_of_le (prev curr : CpuTimes) (hle : CpuTimes.le prev curr) :
    0 ≤ delta_idle prev curr ∧ 0 ≤ delta_nonidle prev curr := by
  obtain ⟨h1, h2, h3, h4, h5, h6, h7, h8⟩ := hle
  simp only [delta_idle, delta_nonidle, spec_idle, spec_nonidle]
  constructor <;> omega

/-- The total is the sum of its idle and non-idle parts, also for the deltas. -/
theorem delta_total_eq (prev curr : CpuTimes) :
    delta_total prev curr = delta_idle prev curr + delta_nonidle prev curr := by
  simp only [delta_total, delta_idle, delta_nonidle, spec_total]; ring

/-- The quotient `n * 100 / t` lies in `[0, 100]` exactly when `n` and `t - n`
have the same sign, for `t ≠ 0`. -/
theorem ratio_in_range_iff (n t : Int) (ht : t ≠ 0) :
    (0 ≤ (n : ℚ) * 100 / (t : ℚ) ∧ (n : ℚ) * 100 / (t : ℚ) ≤ 100) ↔
      ((0 ≤ t - n ∧ 0 ≤ n) ∨ (t - n ≤ 0 ∧ n ≤ 0)) := by
  rcases lt_or_gt_of_ne ht with hneg | hpos
  · have hq : (t : ℚ) < 0 := by exact_mod_cast hneg
    rw [le_div_iff_of_neg hq, div_le_iff_of_neg hq]
    constructor
    · rintro ⟨h1, h2⟩
      have a1 : (n : ℚ) ≤ 0 := by linarith
      have a2 : (t : ℚ) ≤ n := by linarith
      have b1 : n ≤ 0 := by exact_mod_cast a1
      have b2 : t ≤ n := by exact_mod_cast a2
      right; constructor <;> omega
    · rintro (⟨h1, h2⟩ | ⟨h1, h2⟩)
      · omega
      · have a1 : (n : ℚ) ≤ 0 := by exact_mod_cast h2
        have a2 : (t : ℚ) ≤ n := by
          have : t ≤ n := by omega
          exact_mod_cast this
        constructor <;> linarith
  · have hq : (0 : ℚ) < t := by exact_mod_cast hpos
    rw [le_div_iff₀ hq, div_le_iff₀ hq]
    constructor
    · rintro ⟨h1, h2⟩
      have a1 : (0 : ℚ) ≤ n := by linarith
      have a2 : (n : ℚ) ≤ t := by linarith
      have b1 : 0 ≤ n := by exact_mod_cast a1
      have b2 : n ≤ t := by exact_mod_cast a2
      left; constructor <;> omega
    · rintro (⟨h1, h2⟩ | ⟨h1, h2⟩)
      · have a1 : (0 : ℚ) ≤ n := by exact_mod_cast h2
        have a2 : (n : ℚ) ≤ t := by
          have : n ≤ t := by omega
          exact_mod_cast this
        constructor <;> linarith
      · omega

/-- C1. For two valid samples (eight non-negative counters, every counter of
`curr` at least the one of `prev`) with `Δtotal > 0`, `calculate_cpu_usage`
returns a finite value `v` with `0 ≤ v ≤ 100`. -/
theorem cpu_usage_in_range (prev curr : CpuTimes)
    (hp : prev.nonneg) (hc : curr.nonneg) (hle : CpuTimes.le prev curr)
    (hpos : 0 < delta_total prev curr) :
    ∃ v, calculate_cpu_usage prev curr = some v ∧ 0 ≤ v ∧ v ≤ 100 := by
  have hne : delta_total prev curr ≠ 0 := by omega
  obtain ⟨hi, hn⟩ := deltas_nonneg_of_le prev curr hle
  refine ⟨_, by rw [calculate_cpu_usage_eq, if_neg hne], ?_⟩
  apply (ratio_in_range_iff _ _ hne).mpr
  left
  have := delta_total_eq prev curr
  constructor <;> omega

/-- C1, at the samples of the specification's scenario. -/
theorem cpu_usage_in_range_witness :
    scenario_prev.nonneg ∧ scenario_curr.nonneg ∧
      CpuTimes.le scenario_prev scenario_curr ∧
      0 < delta_total scenario_prev scenario_curr ∧
      ∃ v, calculate_cpu_usage scenario_prev scenario_curr = some v ∧ 0 ≤ v ∧ v ≤ 100 :=
  ⟨by decide, by decide, by decide, by decide,
    cpu_usage_in_range scenario_prev scenario_curr
      (by decide) (by decide) (by decide) (by decide)⟩

/-- C2 fails as stated: with non-negative counters of which `iowait`
decreases, `calculate_cpu_usage` returns 200 for one pair and -100 for
another; the result is not clamped. -/
theorem cpu_usage_not_clamped :
    decreasing_prev.nonneg ∧ decreasing_curr_high.nonneg ∧ decreasing_curr_low.nonneg ∧
      calculate_cpu_usage decreasing_prev decreasing_curr_high = some 200 ∧
      calculate_cpu_usage decreasing_prev decreasing_curr_low = some (-100) := by
  refine ⟨by decide, by decide, by decide, ?_, ?_⟩
  · rw [calculate_cpu_usage_eq]
    norm_num [delta_total, delta_nonidle, spec_total, spec_idle, spec_nonidle,
      decreasing_prev, decreasing_curr_high]
  · rw [calculate_cpu_usage_eq]
    norm_num [delta_total, delta_nonidle, spec_total, spec_idle, spec_nonidle,
      decreasing_prev, decreasing_curr_low]

/-- C2, amended. For every pair of samples `calculate_cpu_usage` returns a
finite value (never a NaN), and the value lies in `[0, 100]` exactly when
`Δtotal = 0` or the idle and the non-idle time changed in the same direction
(both did not decrease, as with non-decreasing counters, or both did not
increase). -/
theorem cpu_usage_in_range_iff (prev curr : CpuTimes) :
    (∃ v, calculate_cpu_usage prev curr = some v) ∧
    ((∃ v, calculate_cpu_usage prev curr = some v ∧ 0 ≤ v ∧ v ≤ 100) ↔
      (delta_total prev curr = 0 ∨
        (0 ≤ delta_idle prev curr ∧ 0 ≤ delta_nonidle prev curr) ∨
        (delta_idle prev curr ≤ 0 ∧ delta_nonidle prev curr ≤ 0))) := by
  refine ⟨calculate_cpu_usage_finite prev curr, ?_⟩
  have ht := delta_total_eq prev curr
  by_cases h0 : delta_total prev curr = 0
  · simp only [h0, true_or, iff_true]
    exact ⟨0, by rw [calculate_cpu_usage_eq, if_pos h0], le_refl _, by norm_num⟩
  · have hi : delta_idle prev curr = delta_total prev curr - delta_nonidle prev curr := by
      omega
    rw [calculate_cpu_usage_eq, if_neg h0, hi]
    simp only [h0, false_or]
    rw [← ratio_in_range_iff _ _ h0]
    constructor
    · rintro ⟨v, hv, h1, h2⟩
      cases hv
      exact ⟨h1, h2⟩
    · rintro ⟨h1, h2⟩
      exact ⟨_, rfl, h1, h2⟩

/-- C3. When the totals of the two samples are equal (`Δtotal = 0`),
`calculate_cpu_usage` returns exactly 0 and this is not the result of the
division, whose divisor would be zero; in particular
`calculate_cpu_usage s s = 0` for every sample `s`. -/
theorem cpu_usage_zero_of_equal_totals (prev curr s : CpuTimes)
    (h : spec_total curr = spec_total prev) :
    calculate_cpu_usage prev curr = some 0 ∧
      fdiv (((delta_total prev curr - delta_idle prev curr : Int) : ℚ) * 100)
        (delta_total prev curr : ℚ) = none ∧
      calculate_cpu_usage s s = some 0 := by
  have h0 : delta_total prev curr = 0 := by simp [delta_total, h]
  have hs : delta_total s s = 0 := by simp [delta_total]
  refine ⟨?_, ?_, ?_⟩
  · rw [calculate_cpu_usage_eq, if_pos h0]
  · simp [fdiv, h0]
  · rw [calculate_cpu_usage_eq, if_pos hs]

/-- C3, at two different samples of equal total and at the scenario's
sample. -/
theorem cpu_usage_zero_of_equal_totals_witness :
    spec_total frozen_curr = spec_total scenario_curr ∧
      calculate_cpu_usage scenario_curr frozen_curr = some 0 ∧
      calculate_cpu_usage scenario_prev scenario_prev = some 0 :=
  ⟨by decide,
    (cpu_usage_zero_of_equal_totals scenario_curr frozen_curr scenario_prev (by decide)).1,
    (cpu_usage_zero_of_equal_totals scenario_curr frozen_curr scenario_prev (by decide)).2.2⟩

/-- C4. For `Δtotal ≠ 0`, `calculate_cpu_usage` returns
`(Δtotal - Δidle) * 100 / Δtotal`, the deltas being those of the
specification's `total = idle' + nonidle'` and `idle' = idle + iowait`. -/
theorem cpu_usage_formula (prev curr : CpuTimes) (h : delta_total prev curr ≠ 0) :
    calculate_cpu_usage prev curr =
      some (((delta_total prev curr - delta_idle prev curr : Int) : ℚ) * 100
              / (delta_total prev curr : ℚ)) := by
  have hn : delta_total prev curr - delta_idle prev curr = delta_nonidle prev curr := by
    have := delta_total_eq prev curr
    omega
  rw [calculate_cpu_usage_eq, if_neg h, hn]

/-- C4, at the specification's scenario: `Δtotal = 40`, `Δidle = 10` and the
result is 75. -/
theorem cpu_usage_formula_witness :
    delta_total scenario_prev scenario_curr = 40 ∧
      delta_idle scenario_prev scenario_curr = 10 ∧
      calculate_cpu_usage scenario_prev scenario_curr = some 75 :=
  ⟨by decide, by decide,
    (cpu_usage_formula scenario_prev scenario_curr (by decide)).trans (by
      have h1 : delta_total scenario_prev scenario_curr = 40 := by decide
      have h2 : delta_idle scenario_prev scenario_curr = 10 := by decide
      rw [h1, h2]; norm_num)⟩

/-! ### The snapshot sort -/

/-- A comparator `key a > key b` on a linearly ordered key is a strict weak
ordering. -/
theorem strictWeakOrder_of_key {K : Type} [LinearOrder K] (key : ProcessInfo → K) :
    StrictWeakOrder (fun a b => decide (key a > key b)) := by
  refine ⟨?_, ?_, ?_⟩
  · intro a; simp
  · intro a b c hab hbc
    simp only [gt_iff_lt, decide_eq_true_eq] at hab hbc ⊢
    exact lt_trans hbc hab
  · intro a b c h1 h2 h3 h4
    simp only [gt_iff_lt, decide_eq_false_iff_not, not_lt] at h1 h2 h3 h4 ⊢
    exact ⟨le_trans h1 h3, le_trans h4 h2⟩

/-- The comparator of the CPU sort is a strict weak ordering. -/
theorem strictWeakOrder_by_cpu : StrictWeakOrder by_cpu :=
  strictWeakOrder_of_key (fun p => p.cpu_usage)

/-- The comparator of the memory sort is a strict weak ordering. -/
theorem strictWeakOrder_by_mem : StrictWeakOrder by_mem :=
  strictWeakOrder_of_key (fun p => p.mem_usage_kb)

/-- Sorted with respect to `key a > key b` means non-increasing in the key. -/
theorem sortedBy_key_iff {K : Type} [LinearOrder K] (key : ProcessInfo → K)
    (l : List ProcessInfo) :
    SortedBy (fun a b => decide (key a > key b)) l ↔
      l.Pairwise (fun a b => key a ≥ key b) := by
  unfold SortedBy
  constructor <;> intro h <;> refine h.imp ?_ <;> intro a b hab
  · simpa using hab
  · simpa using hab

/-- For a strict weak ordering, "does not compare before" is total. -/
theorem not_before_total {comp : ProcessInfo → ProcessInfo → Bool}
    (h : StrictWeakOrder comp) (a b : ProcessInfo) :
    comp b a = false ∨ comp a b = false := by
  obtain ⟨hirr, htr, _⟩ := h
  by_cases hba : comp b a = true
  · by_cases hab : comp a b = true
    · have := htr a b a hab hba
      rw [hirr a] at this
      exact absurd this (by simp)
    · right; simpa using hab
  · left; simpa using hba

/-- For a strict weak ordering, "does not compare before" is transitive. -/
theorem not_before_trans {comp : ProcessInfo → ProcessInfo → Bool}
    (h : StrictWeakOrder comp) (a b c : ProcessInfo)
    (hba : comp b a = false) (hcb : comp c b = false) : comp c a = false := by
  obtain ⟨_, htr, heq⟩ := h
  by_contra hca
  have hca : comp c a = true := by simpa using hca
  by_cases hab : comp a b = true
  · have := htr c a b hca hab
    rw [hcb] at this
    exact absurd this (by simp)
  · have hab : comp a b = false := by simpa using hab
    by_cases hbc : comp b c = true
    · have := htr b c a hbc hca
      rw [hba] at this
      exact absurd this (by simp)
    · have hbc : comp b c = false := by simpa using hbc
      have := (heq a b c hab hba hbc hcb).2
      rw [hca] at this
      exact absurd this (by simp)

/-- Insertion sort meets the guarantees of `std::sort`. -/
theorem stdSort_insertion_sort : StdSort insertion_sort := by
  intro comp l hswo
  haveI : IsTotal ProcessInfo (fun a b => comp b a = false) :=
    ⟨fun a b => not_before_total hswo a b⟩
  haveI : IsTrans ProcessInfo (fun a b => comp b a = false) :=
    ⟨fun a b c hab hbc => not_before_trans hswo a b c hab hbc⟩
  exact ⟨List.perm_insertionSort _ l, List.sorted_insertionSort _ l⟩

/-- Inserting a record into a list keeps the records of any one key in
place, the new record in front of them. -/
theorem filter_orderedInsert_key {K : Type} [LinearOrder K] (key : ProcessInfo → K) (k : K)
    (a : ProcessInfo) (t : List ProcessInfo) :
    (t.orderedInsert (fun x y => decide (key y > key x) = false) a).filter
        (fun p => decide (key p = k)) =
      if key a = k then a :: t.filter (fun p => decide (key p = k))
      else t.filter (fun p => decide (key p = k)) := by
  induction t with
  | nil => by_cases ha : key a = k <;> simp [ha]
  | cons b t ih =>
    rw [List.orderedInsert]
    split_ifs with hr ha ha
    · simp [List.filter_cons, ha]
    · simp [List.filter_cons, ha]
    · have hlt : key a < key b := by simpa using hr
      have hb : key b ≠ k := by rw [← ha]; exact ne_of_gt hlt
      rw [List.filter_cons, ih]
      simp [List.filter_cons, ha, hb]
    · rw [List.filter_cons, ih]
      simp [List.filter_cons, ha]

/-- Insertion sort is stable: the records of any one key keep their order. -/
theorem insertion_sort_stable {K : Type} [LinearOrder K] (key : ProcessInfo → K) (k : K)
    (l : List ProcessInfo) :
    (insertion_sort (fun a b => decide (key a > key b)) l).filter
        (fun p => decide (key p = k)) =
      l.filter (fun p => decide (key p = k)) := by
  induction l with
  | nil => rfl
  | cons a l ih =>
    have := filter_orderedInsert_key key k a
      (insertion_sort (fun a b => decide (key a > key b)) l)
    simp only [insertion_sort, List.insertionSort] at this ih ⊢
    rw [this, ih]
    by_cases ha : key a = k <;> simp [List.filter_cons, ha]

/-- What `sort_processes` guarantees with any `std::sort`: a permutation of
the records, sorted with respect to the comparator of the mode. -/
theorem sort_processes_spec (sort : SortFn) (h : StdSort sort) (sort_mode : Char)
    (processes : List ProcessInfo) :
    (sort_processes sort sort_mode processes).Perm processes ∧
      (sort_mode = 'c' → SortedBy by_cpu (sort_processes sort sort_mode processes)) ∧
      (sort_mode ≠ 'c' → SortedBy by_mem (sort_processes sort sort_mode processes)) := by
  unfold sort_processes
  by_cases hm : sort_mode = 'c'
  · simp only [hm, if_true, ne_eq, not_true_eq_false, false_implies, and_true, true_implies]
    exact h by_cpu processes strictWeakOrder_by_cpu
  · simp only [hm, if_false, ne_eq, not_false_eq_true, false_implies, true_and, true_implies]
    exact h by_mem processes strictWeakOrder_by_mem

/-- C5. With any `std::sort`, the rows `display_process_list` prints are
those of the sorted vector in order, and for every list of records the sorted
vector is non-increasing in `mem_usage_kb` when the sort mode is not `'c'`
and non-increasing in `cpu_usage` when it is `'c'`. -/
theorem display_process_list_nonincreasing (sort : SortFn) (h : StdSort sort)
    (fs : ProcFs) (sort_mode : Char) (processes : List ProcessInfo) :
    display_process_list sort fs sort_mode =
        "PID\tProcess Name\tMemory (KB)" ::
        "-----------------------------------------" ::
        (sort_processes sort sort_mode (fs.pids.map (get_process_info fs))).map row_line ∧
      (sort_mode ≠ 'c' →
        (sort_processes sort sort_mode processes).Pairwise
          (fun a b => a.mem_usage_kb ≥ b.mem_usage_kb)) ∧
      (sort_mode = 'c' →
        (sort_processes sort sort_mode processes).Pairwise
          (fun a b => a.cpu_usage ≥ b.cpu_usage)) := by
  obtain ⟨_, hc, hm⟩ := sort_processes_spec sort h sort_mode processes
  refine ⟨rfl, ?_, ?_⟩
  · intro hne
    exact (sortedBy_key_iff (fun p => p.mem_usage_kb) _).mp (hm hne)
  · intro heq
    exact (sortedBy_key_iff (fun p => p.cpu_usage) _).mp (hc heq)

/-- C5, with insertion sort as the `std::sort`, on three records in both
modes. -/
theorem display_process_list_nonincreasing_witness :
    StdSort insertion_sort ∧
      (sort_processes insertion_sort 'm' sample_processes).map (fun p => p.mem_usage_kb)
        = [1200, 400, 400] ∧
      (sort_processes insertion_sort 'c' sample_processes).map (fun p => p.cpu_usage)
        = [9, 7, 0] ∧
      (sort_processes insertion_sort 'm' sample_processes).Pairwise
        (fun a b => a.mem_usage_kb ≥ b.mem_usage_kb) ∧
      (sort_processes insertion_sort 'c' sample_processes).Pairwise
        (fun a b => a.cpu_usage ≥ b.cpu_usage) :=
  ⟨stdSort_insertion_sort, by decide, by decide,
    (display_process_list_nonincreasing insertion_sort stdSort_insertion_sort
      sample_fs 'm' sample_processes).2.1 (by decide),
    (display_process_list_nonincreasing insertion_sort stdSort_insertion_sort
      sample_fs 'c' sample_processes).2.2 rfl⟩

set_option maxRecDepth 100000

/-- Every record `get_process_info` builds: the pid asked for, an empty name
when `comm` cannot be opened, memory 0 when `statm` cannot be opened, and
`cpu_usage` 0. -/
theorem get_process_info_spec (fs : ProcFs) (pid : Int) :
    (get_process_info fs pid).pid = pid ∧
      (fs.comm pid = none → (get_process_info fs pid).name = "") ∧
      (fs.statm pid = none → (get_process_info fs pid).mem_usage_kb = 0) ∧
      (get_process_info fs pid).cpu_usage = 0 := by
  refine ⟨rfl, ?_, ?_, rfl⟩
  · intro h; simp [get_process_info, h]
  · intro h; simp [get_process_info, h]

/-- C10. With any `std::sort`, for every enumerated list of pids and every
outcome of the per-process reads, the table of `display_process_list` has one
row per enumerated pid (the pids of the rows are a permutation of the
enumerated list and one line is printed per pid after the two heading lines);
every row is the record `get_process_info` builds for its pid: an empty name
when `comm` cannot be opened, memory 0 when `statm` cannot be opened, and
`cpu_usage` 0. -/
theorem process_table_one_row_per_pid (sort : SortFn) (h : StdSort sort)
    (fs : ProcFs) (sort_mode : Char) :
    ((process_table sort fs sort_mode).map (fun p => p.pid)).Perm fs.pids ∧
      (display_process_list sort fs sort_mode).length = fs.pids.length + 2 ∧
      ∀ row ∈ process_table sort fs sort_mode,
        row = get_process_info fs row.pid ∧
        (fs.comm row.pid = none → row.name = "") ∧
        (fs.statm row.pid = none → row.mem_usage_kb = 0) ∧
        row.cpu_usage = 0 := by
  obtain ⟨hp, _, _⟩ :=
    sort_processes_spec sort h sort_mode (fs.pids.map (get_process_info fs))
  have hpid : ((process_table sort fs sort_mode).map (fun p => p.pid)).Perm fs.pids := by
    have h1 := hp.map (fun p => p.pid)
    have h2 : (fs.pids.map (get_process_info fs)).map (fun p => p.pid) = fs.pids := by
      rw [List.map_map]
      conv_rhs => rw [← List.map_id fs.pids]
      rfl
    rw [h2] at h1
    exact h1
  refine ⟨hpid, ?_, ?_⟩
  · have := hpid.length_eq
    simp only [List.length_map] at this
    simp [display_process_list, this]
  · intro row hrow
    have hmem : row ∈ fs.pids.map (get_process_info fs) := hp.subset hrow
    obtain ⟨pid, _, rfl⟩ := List.mem_map.mp hmem
    obtain ⟨h1, h2, h3, h4⟩ := get_process_info_spec fs pid
    exact ⟨by rw [h1], by rw [h1]; exact h2, by rw [h1]; exact h3, h4⟩

/-- C10, with insertion sort on a `/proc` of three processes, the third of
which has vanished: its row is kept, with an empty name and memory 0. -/
theorem process_table_one_row_per_pid_witness :
    StdSort insertion_sort ∧
      process_table insertion_sort sample_fs 'm' =
        [ { pid := 2, name := "sh", mem_usage_kb := 1200, cpu_usage := 0 },
          { pid := 1, name := "init", mem_usage_kb := 400, cpu_usage := 0 },
          { pid := 3, name := "", mem_usage_kb := 0, cpu_usage := 0 } ] ∧
      ((process_table insertion_sort sample_fs 'm').map (fun p => p.pid)).Perm sample_fs.pids :=
  ⟨stdSort_insertion_sort, by decide,
    (process_table_one_row_per_pid insertion_sort stdSort_insertion_sort sample_fs 'm').1⟩

/-! ### The history log -/

/-- No decimal digit is a line feed. -/
theorem digitChar_ne_newline (d : Nat) : Nat.digitChar d ≠ '\n' := by
  by_cases h : d < 16
  · interval_cases d <;> decide
  · have e : Nat.digitChar d = '*' := by
      unfold Nat.digitChar
      repeat (rw [if_neg (by omega)])
    rw [e]; decide

/-- The digits of a number contain no line feed. -/
theorem toDigitsCore_no_newline (b fuel n : Nat) (ds : List Char)
    (h : '\n' ∉ ds) : '\n' ∉ Nat.toDigitsCore b fuel n ds := by
  induction fuel generalizing n ds with
  | zero => simpa [Nat.toDigitsCore] using h
  | succ fuel ih =>
    have hd : '\n' ∉ Nat.digitChar (n % b) :: ds := by
      simp only [List.mem_cons, not_or]
      exact ⟨fun e => digitChar_ne_newline _ e.symm, h⟩
    simp only [Nat.toDigitsCore]
    split_ifs
    · exact hd
    · exact ih _ _ hd

/-- The text of a natural number contains no line feed. -/
theorem nat_toString_no_newline (n : Nat) : '\n' ∉ (toString n).data := by
  show '\n' ∉ (Nat.repr n).data
  simp only [Nat.repr, Nat.toDigits, List.asString]
  exact toDigitsCore_no_newline _ _ _ _ (by simp)

/-- The text of an integer contains no line feed. -/
theorem int_toString_no_newline (i : Int) : '\n' ∉ (toString i).data := by
  cases i with
  | ofNat m => exact nat_toString_no_newline m
  | negSucc m =>
    show '\n' ∉ ("-" ++ toString (Nat.succ m)).data
    rw [String.data_append]
    simp only [List.mem_append, not_or]
    exact ⟨by decide, nat_toString_no_newline _⟩

/-- A line feed in the middle of the unread characters splits the reading. -/
theorem read_lines_from_append (a b line : List Char) :
    read_lines_from line (a ++ '\n' :: b) =
      read_lines_from line (a ++ ['\n']) ++ read_lines_from [] b := by
  induction a generalizing line with
  | nil => simp [read_lines_from]
  | cons c a ih =>
    by_cases hc : c = '\n'
    · simp [read_lines_from, hc, ih]
    · simp [read_lines_from, hc, ih]

/-- Characters without a line feed, followed by one, are read as one line. -/
theorem read_lines_from_line (l line : List Char) (h : '\n' ∉ l) :
    read_lines_from line (l ++ ['\n']) = [String.mk (line ++ l)] := by
  induction l generalizing line with
  | nil => simp [read_lines_from]
  | cons c l ih =>
    simp only [List.mem_cons, not_or] at h
    have hc : c ≠ '\n' := fun e => h.1 e.symm
    simp [read_lines_from, hc, ih _ h.2]

/-- After a terminated text, one more terminated line is read as one more
line. -/
theorem read_lines_append_line (content record : String) (hterm : Terminated content)
    (hrec : '\n' ∉ record.data) :
    read_lines (content ++ record ++ "\n") = read_lines content ++ [record] := by
  have hdata : (content ++ record ++ "\n").data = content.data ++ (record.data ++ ['\n']) := by
    simp [String.data_append]
  unfold read_lines
  rw [hdata]
  rcases hterm with h | h
  · rw [h]
    simp [read_lines_from, read_lines_from_line _ _ hrec]
  · have hsplit : content.data.dropLast ++ ['\n'] = content.data :=
      List.dropLast_append_getLast? _ (by simp [h])
    rw [← hsplit, List.append_assoc, List.singleton_append, read_lines_from_append,
      read_lines_from_line _ _ hrec]
    simp

/-- The conversion of a non-negative `int` to `size_t` keeps its value. -/
theorem unsigned_of_nonneg (n : Int) (h0 : 0 ≤ n) (hn : n < 2 ^ 31) :
    (n % 2 ^ 64).toNat = n.toNat := by
  rw [Int.emod_eq_of_lt h0 (by omega)]

/-- The record `log_stats` writes has no line feed inside when the timestamp
and the text of the `double` have none. -/
theorem spec_record_no_newline (show_double : Double → String)
    (hshow : ∀ x, '\n' ∉ (show_double x).data) (timestamp : String) (cpu_load : Double)
    (used total : Int) (hts : '\n' ∉ timestamp.data) :
    '\n' ∉ (spec_record show_double timestamp cpu_load used total).data := by
  have h1 := int_toString_no_newline used
  have h2 := int_toString_no_newline total
  have h3 := hshow cpu_load
  have hcomma : '\n' ∉ (",").data := by decide
  simp only [spec_record, String.data_append, List.mem_append, not_or]
  exact ⟨⟨⟨⟨⟨⟨hts, hcomma⟩, h3⟩, hcomma⟩, h1⟩, hcomma⟩, h2⟩

/-- What `log_stats` leaves in the file, in terms of the specification's
record. -/
theorem log_stats_eq (show_double : Double → String) (file : Option String)
    (timestamp : String) (cpu_load : Double) (mem_used mem_total : Int) :
    log_stats show_double file timestamp cpu_load mem_used mem_total =
      file.getD "" ++
        spec_record show_double timestamp cpu_load (mem_used.tdiv 1024) (mem_total.tdiv 1024)
        ++ "\n" := by
  cases file with
  | none => simp [log_stats, spec_record, String.append_assoc]
  | some content => simp [log_stats, spec_record, String.append_assoc]

/-- C7. For every file content and every `n ≥ 0`, `display_history` prints,
after its two heading lines, a final segment of the lines of the file in file
order, `min n (number of lines)` of them: the last `n` lines when the file has
more than `n`, all of them otherwise. When the file cannot be opened it prints
the single line "No history log found." The function is total. -/
theorem display_history_tail (content : String) (n : Int) (h0 : 0 ≤ n) (hn : n < 2 ^ 31) :
    display_history none n = ["No history log found."] ∧
      ∃ earlier shown,
        read_lines content = earlier ++ shown ∧
        shown.length = min n.toNat (read_lines content).length ∧
        display_history (some content) n =
          "Timestamp, CPU Load %, Memory Used MB, Memory Total MB" ::
          "-------------------------------------------------------" :: shown := by
  refine ⟨rfl, ?_⟩
  have hu := unsigned_of_nonneg n h0 hn
  by_cases hlen : (read_lines content).length > n.toNat
  · refine ⟨(read_lines content).take ((read_lines content).length - n.toNat),
      (read_lines content).drop ((read_lines content).length - n.toNat), ?_, ?_, ?_⟩
    · exact (List.take_append_drop _ _).symm
    · rw [List.length_drop]; omega
    · simp only [display_history, hu, if_pos hlen]
  · refine ⟨[], read_lines content, rfl, ?_, ?_⟩
    · omega
    · simp only [display_history, hu, if_neg hlen, List.drop_zero]

/-- C7, on a log of a header and three records with `n = 2`: the last two
records are printed. -/
theorem display_history_tail_witness :
    display_history (some "Timestamp\nr1\nr2\nr3\n") 2 =
        [ "Timestamp, CPU Load %, Memory Used MB, Memory Total MB",
          "-------------------------------------------------------", "r2", "r3" ] ∧
      (display_history none 2 = ["No history log found."] ∧
        ∃ earlier shown,
          read_lines "Timestamp\nr1\nr2\nr3\n" = earlier ++ shown ∧
          shown.length = min (2 : Int).toNat (read_lines "Timestamp\nr1\nr2\nr3\n").length ∧
          display_history (some "Timestamp\nr1\nr2\nr3\n") 2 =
            "Timestamp, CPU Load %, Memory Used MB, Memory Total MB" ::
            "-------------------------------------------------------" :: shown) :=
  ⟨by decide, display_history_tail "Timestamp\nr1\nr2\nr3\n" 2 (by decide) (by decide)⟩

/-- C8 fails as stated: on an existing log whose last line has no
terminator (here a header line alone), `log_stats` writes the record directly
after that line, so the header line is no longer a line of the file and the
last line `display_history` prints is not the record. -/
theorem log_stats_joins_unterminated_line :
    log_stats show_floor (some "Timestamp,CPU Load %,Memory Used MB,Memory Total MB")
        "2026-01-01 10:00:00" (some 75) 6000000 8000000 =
      "Timestamp,CPU Load %,Memory Used MB,Memory Total MB2026-01-01 10:00:00,75,5859,7812\n" ∧
    spec_record show_floor "2026-01-01 10:00:00" (some 75)
        ((6000000 : Int).tdiv 1024) ((8000000 : Int).tdiv 1024) =
      "2026-01-01 10:00:00,75,5859,7812" ∧
    read_lines "Timestamp,CPU Load %,Memory Used MB,Memory Total MB" =
      ["Timestamp,CPU Load %,Memory Used MB,Memory Total MB"] ∧
    display_history (some (log_stats show_floor
        (some "Timestamp,CPU Load %,Memory Used MB,Memory Total MB")
        "2026-01-01 10:00:00" (some 75) 6000000 8000000)) 10 =
      [ "Timestamp, CPU Load %, Memory Used MB, Memory Total MB",
        "-------------------------------------------------------",
        "Timestamp,CPU Load %,Memory Used MB,Memory Total MB2026-01-01 10:00:00,75,5859,7812" ] := by
  refine ⟨by decide, by decide, by decide, by decide⟩

/-- C8, amended. For every existing log content that is empty or ends with a
line feed, every record whose timestamp has no line feed and every `n ≥ 1`:
after `log_stats` the file is the previous content followed by the line
`timestamp,cpu_load,mem_used/1024,mem_total/1024` and a line feed, its lines
are the previous lines followed by that line, it is terminated again, and the
last line `display_history` prints is that line. `show_double` is the text the
stream writes for a `double`; it has no line feed. -/
theorem log_stats_then_display_history (show_double : Double → String)
    (hshow : ∀ x, '\n' ∉ (show_double x).data)
    (content timestamp : String) (cpu_load : Double) (mem_used mem_total n : Int)
    (hterm : Terminated content) (hts : '\n' ∉ timestamp.data)
    (h1 : 1 ≤ n) (hn : n < 2 ^ 31) :
    log_stats show_double (some content) timestamp cpu_load mem_used mem_total =
        content ++
          spec_record show_double timestamp cpu_load (mem_used.tdiv 1024) (mem_total.tdiv 1024)
          ++ "\n" ∧
      read_lines (log_stats show_double (some content) timestamp cpu_load mem_used mem_total) =
        read_lines content ++
          [spec_record show_double timestamp cpu_load (mem_used.tdiv 1024)
            (mem_total.tdiv 1024)] ∧
      Terminated (log_stats show_double (some content) timestamp cpu_load mem_used mem_total) ∧
      (display_history
          (some (log_stats show_double (some content) timestamp cpu_load mem_used mem_total))
          n).getLast? =
        some (spec_record show_double timestamp cpu_load (mem_used.tdiv 1024)
          (mem_total.tdiv 1024)) := by
  have heq := log_stats_eq show_double (some content) timestamp cpu_load mem_used mem_total
  simp only [Option.getD_some] at heq
  have hrec := spec_record_no_newline show_double hshow timestamp cpu_load
    (mem_used.tdiv 1024) (mem_total.tdiv 1024) hts
  have hlines := read_lines_append_line content _ hterm hrec
  refine ⟨heq, ?_, ?_, ?_⟩
  · rw [heq, hlines]
  · rw [heq]
    right
    simp [String.data_append]
  · have hu := unsigned_of_nonneg n (by omega) hn
    have hpos : 1 ≤ n.toNat := by omega
    simp only [display_history, hu]
    rw [heq, hlines]
    have hlast : ∀ (a b r : String) (xs : List String),
        (a :: b :: (xs ++ [r])).getLast? = some r := by
      intro a b r xs
      rw [show a :: b :: (xs ++ [r]) = (a :: b :: xs) ++ [r] from rfl]
      exact List.getLast?_concat _
    split_ifs with hlen
    · rw [List.length_append, List.length_singleton] at hlen ⊢
      rw [List.drop_append_of_le_length (by omega)]
      exact hlast _ _ _ _
    · exact hlast _ _ _ _

/-- C8 amended, on the log the program creates at start-up (the header line):
the record becomes the second line and the last line printed. -/
theorem log_stats_then_display_history_witness :
    Terminated (init_log none) ∧
      read_lines (log_stats show_floor (some (init_log none)) "2026-01-01 10:00:00" (some 75)
          6000000 8000000) =
        [ "Timestamp,CPU Load %,Memory Used MB,Memory Total MB",
          "2026-01-01 10:00:00,75,5859,7812" ] ∧
      (display_history
          (some (log_stats show_floor (some (init_log none)) "2026-01-01 10:00:00" (some 75)
            6000000 8000000)) 10).getLast? =
        some (spec_record show_floor "2026-01-01 10:00:00" (some 75)
          ((6000000 : Int).tdiv 1024) ((8000000 : Int).tdiv 1024)) :=
  ⟨by decide, by decide,
    (log_stats_then_display_history show_floor
      (fun x => by
        cases x with
        | none => decide
        | some q => exact int_toString_no_newline _)
      (init_log none) "2026-01-01 10:00:00" (some 75) 6000000 8000000 10
      (by decide) (by decide) (by decide) (by decide)).2.2.2⟩

/-- C9. For every memory sample with `0 ≤ available ≤ total`, the cycle passes
`used = total - available` and `total` to `display_system_info` and to
`log_stats`; both report `used / 1024` and `total / 1024`, the integer
quotients, and `0 ≤ used / 1024 ≤ total / 1024`. -/
theorem memory_cycle_megabytes (show_double : Double → String) (cpu_usage : Double)
    (total available : Int) (file : Option String) (timestamp : String)
    (h0 : 0 ≤ available) (hle : available ≤ total) :
    (memory_cycle show_double cpu_usage (total, available) file timestamp).1 =
        "System Monitor Tool\n\n" ++ "CPU Load: " ++ show_double cpu_usage ++ " %\n" ++
          "Memory Usage: " ++ toString ((total - available) / 1024) ++ " MB / " ++
          toString (total / 1024) ++ " MB\n\n" ∧
      (memory_cycle show_double cpu_usage (total, available) file timestamp).2 =
        file.getD "" ++
          spec_record show_double timestamp cpu_usage ((total - available) / 1024) (total / 1024)
          ++ "\n" ∧
      0 ≤ (total - available) / 1024 ∧
      (total - available) / 1024 ≤ total / 1024 := by
  have hu : (total - available).tdiv 1024 = (total - available) / 1024 :=
    Int.tdiv_eq_ediv (by omega) (by decide)
  have ht : total.tdiv 1024 = total / 1024 := Int.tdiv_eq_ediv (by omega) (by decide)
  refine ⟨?_, ?_, by omega, by omega⟩
  · simp only [memory_cycle, display_system_info, hu, ht]
  · simp only [memory_cycle, log_stats_eq, hu, ht]

/-- C9, at the specification's scenario: total 8000000 KB and available
2000000 KB are shown and logged as 5859 MB used of 7812 MB. -/
theorem memory_cycle_megabytes_witness :
    memory_cycle show_floor (some 75) (8000000, 2000000) (some (init_log none))
        "2026-01-01 10:00:00" =
      ("System Monitor Tool\n\nCPU Load: 75 %\nMemory Usage: 5859 MB / 7812 MB\n\n",
       "Timestamp,CPU Load %,Memory Used MB,Memory Total MB\n2026-01-01 10:00:00,75,5859,7812\n") ∧
      ((8000000 : Int) - 2000000) / 1024 = 5859 ∧ (8000000 : Int) / 1024 = 7812 ∧
      (0 : Int) ≤ (8000000 - 2000000) / 1024 ∧
      ((8000000 : Int) - 2000000) / 1024 ≤ 8000000 / 1024 :=
  ⟨by decide, by decide, by decide,
    (memory_cycle_megabytes show_floor (some 75) 8000000 2000000 (some (init_log none))
      "2026-01-01 10:00:00" (by decide) (by decide)).2.2.1,
    (memory_cycle_megabytes show_floor (some 75) 8000000 2000000 (some (init_log none))
      "2026-01-01 10:00:00" (by decide) (by decide)).2.2.2⟩

end SysMonitor
